import Mathlib

/-!
Shallow embedding of the credential lifecycle subsystem of the
`google-tasks-mcp` repository (src/utils/crypto.ts, src/auth/token-storage.ts,
src/auth/oauth-manager.ts), together with theorems settling the frozen claims.

Modelling conventions:
* Byte sequences (Node `Buffer`s, UTF-8 payloads) are `List Nat` with each
  element `< 256`.
* Hex text (`Buffer.toString('hex')`, JS string slicing on it) is `List Char`.
* The AES-256-GCM primitive provided by Node's `crypto` module is external to
  the repository; it is modelled as an abstract `AEAD` structure whose fields
  state exactly the documented contract of an AEAD cipher (16-byte tag,
  byte-valued ciphertext, decryption inverts encryption under matching
  key/iv/aad).  The repository's own code (hex encoding, tag concatenation
  and splitting, envelope layout) is translated directly.
* Randomness (`crypto.randomBytes`) and the network (`fetch` responses) are
  passed as explicit arguments: a random draw becomes a parameter, a response
  becomes an `Except` value.
* JavaScript truthiness tests on optional strings/numbers (`!x`) are modelled
  by `jsTruthyStr` / `jsTruthyNat`: `none` and `some ""` / `some 0` are falsy.
-/

/-! ### Hex encoding (Buffer.toString('hex') / Buffer.from(·,'hex')) -/

/-- One lowercase hex digit, as produced by Node's `toString('hex')`. -/
def hexDigit (n : Nat) : Char :=
  if n < 10 then Char.ofNat (48 + n) else Char.ofNat (87 + n)

/-- Decode one hex digit; accepts the `0-9`, `a-f` and `A-F` ranges. -/
def hexDecodeDigit (c : Char) : Option Nat :=
  if 48 ≤ c.toNat ∧ c.toNat ≤ 57 then some (c.toNat - 48)
  else if 97 ≤ c.toNat ∧ c.toNat ≤ 102 then some (c.toNat - 87)
  else if 65 ≤ c.toNat ∧ c.toNat ≤ 70 then some (c.toNat - 55)
  else none

/-- Hex encoding of one byte: two lowercase hex characters. -/
def hexEncodeByte (b : Nat) : List Char :=
  [hexDigit (b / 16), hexDigit (b % 16)]

/-- Hex encoding of a byte sequence. -/
def hexEncode : List Nat → List Char
  | [] => []
  | b :: bs => hexEncodeByte b ++ hexEncode bs

/-- Hex decoding of a character sequence back to bytes.  Returns `none` on
odd length or a non-hex character (Node's `Buffer.from(·,'hex')` instead
truncates at the first invalid pair; on the well-formed hex produced by the
repository's own encryptor the two behaviours agree, and a malformed field
makes the subsequent GCM call throw in Node, which this model folds into the
single failure value `none`). -/
def hexDecode : List Char → Option (List Nat)
  | [] => some []
  | c1 :: c2 :: rest =>
    match hexDecodeDigit c1, hexDecodeDigit c2, hexDecode rest with
    | some d1, some d2, some ds => some ((d1 * 16 + d2) :: ds)
    | _, _, _ => none
  | [_] => none

theorem hexDecodeDigit_hexDigit : ∀ d, d < 16 → hexDecodeDigit (hexDigit d) = some d := by
  decide

theorem hexEncode_length (bs : List Nat) : (hexEncode bs).length = 2 * bs.length := by
  induction bs with
  | nil => rfl
  | cons b bs ih => simp [hexEncode, hexEncodeByte, ih]; omega

theorem hexDecode_hexEncode (bs : List Nat) (h : ∀ b ∈ bs, b < 256) :
    hexDecode (hexEncode bs) = some bs := by
  induction bs with
  | nil => rfl
  | cons b bs ih =>
    have hb : b < 256 := h b (by simp)
    have h1 : hexDecodeDigit (hexDigit (b / 16)) = some (b / 16) :=
      hexDecodeDigit_hexDigit _ (by omega)
    have h2 : hexDecodeDigit (hexDigit (b % 16)) = some (b % 16) :=
      hexDecodeDigit_hexDigit _ (by omega)
    have h3 : hexDecode (hexEncode bs) = some bs := ih (fun x hx => h x (by simp [hx]))
    show hexDecode (hexDigit (b / 16) :: hexDigit (b % 16) :: hexEncode bs) = some (b :: bs)
    simp [hexDecode, h1, h2, h3]
    omega

theorem hexEncode_injOn (a b : List Nat) (ha : ∀ x ∈ a, x < 256) (hb : ∀ x ∈ b, x < 256)
    (h : hexEncode a = hexEncode b) : a = b := by
  have := hexDecode_hexEncode a ha
  rw [h, hexDecode_hexEncode b hb] at this
  exact (Option.some.injEq _ _ ▸ this).symm ▸ rfl

/-! ### The AEAD primitive (Node crypto's aes-256-gcm, external library)

`enc key iv aad plaintext = (ciphertext, authTag)`;
`dec key iv aad ciphertext authTag` returns `none` on authentication failure.
The contract fields are the documented behaviour of AES-256-GCM with the
repository's fixed `TAG_LENGTH = 16`. -/

structure AEAD where
  enc : List Nat → List Nat → List Nat → List Nat → List Nat × List Nat
  dec : List Nat → List Nat → List Nat → List Nat → List Nat → Option (List Nat)
  tag_len : ∀ key iv aad p, (enc key iv aad p).2.length = 16
  enc_bytes : ∀ key iv aad p, (∀ b ∈ p, b < 256) → ∀ b ∈ (enc key iv aad p).1, b < 256
  tag_bytes : ∀ key iv aad p, ∀ b ∈ (enc key iv aad p).2, b < 256
  round_trip : ∀ key iv aad p, (∀ b ∈ p, b < 256) →
    dec key iv aad (enc key iv aad p).1 (enc key iv aad p).2 = some p

/-- A concrete (degenerate) instance of the AEAD contract, used to evaluate
the development on closed inputs. -/
def idAEAD : AEAD where
  enc := fun _ _ _ p => (p, List.replicate 16 0)
  dec := fun _ _ _ c t => if t = List.replicate 16 0 then some c else none
  tag_len := by intro k iv aad p; simp
  enc_bytes := by intro k iv aad p hp b hb; exact hp b hb
  tag_bytes := by
    intro k iv aad p b hb
    have := List.eq_of_mem_replicate hb
    omega
  round_trip := by intro k iv aad p _; simp

/-! ### EncryptedData and CryptoManager (src/utils/crypto.ts) -/

/-- Model of `EncryptedData` from src/auth/auth-types.ts: three hex-text fields.
`data` is ciphertext hex with the 32 hex characters of the 16-byte auth tag
appended. -/
structure EncryptedData where
  data : List Char
  iv : List Char
  salt : List Char
deriving DecidableEq

namespace CryptoManager

/-- Model of `CryptoManager.encrypt` (crypto.ts lines 75-92).  The fresh random draws
`iv` (16 bytes) and `salt` (32 bytes, used as AAD) are explicit arguments
standing for the two `crypto.randomBytes` calls. -/
def encrypt (A : AEAD) (key iv salt dataBytes : List Nat) : EncryptedData :=
  let ct := (A.enc key iv salt dataBytes).1
  let authTag := (A.enc key iv salt dataBytes).2
  { data := hexEncode ct ++ hexEncode authTag
    iv := hexEncode iv
    salt := hexEncode salt }

/-- Model of `CryptoManager.decrypt` (crypto.ts lines 97-113).  The auth tag is split
off as the last `TAG_LENGTH * 2 = 32` characters of `data` (JS
`slice(0, -32)` / `slice(-32)`; for `data` shorter than 32 characters JS
yields `""` and the whole string, matched here by truncated `Nat`
subtraction).  Any failure (bad hex feeding the cipher, GCM authentication
failure) is the single value `none`. -/
def decrypt (A : AEAD) (ed : EncryptedData) (key : List Nat) : Option (List Nat) :=
  match hexDecode ed.iv, hexDecode ed.salt,
      hexDecode (ed.data.take (ed.data.length - 32)),
      hexDecode (ed.data.drop (ed.data.length - 32)) with
  | some iv, some salt, some encryptedText, some authTag =>
    A.dec key iv salt encryptedText authTag
  | _, _, _, _ => none

end CryptoManager

/-- Shared round-trip lemma: decrypting an envelope produced by `encrypt`
with the same key recovers the plaintext, for byte-valued iv, salt and
plaintext. -/
theorem decrypt_encrypt (A : AEAD) (key iv salt p : List Nat)
    (hiv : ∀ b ∈ iv, b < 256) (hsalt : ∀ b ∈ salt, b < 256) (hp : ∀ b ∈ p, b < 256) :
    CryptoManager.decrypt A (CryptoManager.encrypt A key iv salt p) key = some p := by
  have hct : ∀ b ∈ (A.enc key iv salt p).1, b < 256 := A.enc_bytes key iv salt p hp
  have htag : ∀ b ∈ (A.enc key iv salt p).2, b < 256 := A.tag_bytes key iv salt p
  have hlen : (hexEncode (A.enc key iv salt p).2).length = 32 := by
    rw [hexEncode_length, A.tag_len]
  have hdatalen :
      (hexEncode (A.enc key iv salt p).1 ++ hexEncode (A.enc key iv salt p).2).length - 32
        = (hexEncode (A.enc key iv salt p).1).length := by
    simp [List.length_append, hlen]
  have htake :
      (hexEncode (A.enc key iv salt p).1 ++ hexEncode (A.enc key iv salt p).2).take
        ((hexEncode (A.enc key iv salt p).1 ++ hexEncode (A.enc key iv salt p).2).length - 32)
        = hexEncode (A.enc key iv salt p).1 := by
    rw [hdatalen]; exact List.take_left _ _
  have hdrop :
      (hexEncode (A.enc key iv salt p).1 ++ hexEncode (A.enc key iv salt p).2).drop
        ((hexEncode (A.enc key iv salt p).1 ++ hexEncode (A.enc key iv salt p).2).length - 32)
        = hexEncode (A.enc key iv salt p).2 := by
    rw [hdatalen]; exact List.drop_left _ _
  simp only [CryptoManager.decrypt, CryptoManager.encrypt, htake, hdrop,
    hexDecode_hexEncode _ hiv, hexDecode_hexEncode _ hsalt,
    hexDecode_hexEncode _ hct, hexDecode_hexEncode _ htag]
  exact A.round_trip key iv salt p hp

/-! ### TokenSet and TokenStorage (src/auth/auth-types.ts, src/auth/token-storage.ts) -/

/-- Model of `TokenSet` from src/auth/auth-types.ts. -/
structure TokenSet where
  access_token : String
  refresh_token : Option String := none
  expires_in : Option Nat := none
  token_type : Option String := none
  scope : Option String := none
  expires_at : Option Nat := none
deriving DecidableEq

/-- JavaScript truthiness of an optional string: `undefined` and `""` are
falsy. -/
def jsTruthyStr : Option String → Bool
  | none => false
  | some s => decide (s ≠ "")

/-- JavaScript truthiness of an optional number: `undefined` and `0` are
falsy. -/
def jsTruthyNat : Option Nat → Bool
  | none => false
  | some n => decide (n ≠ 0)

namespace TokenStorage

/-- Model of `TokenStorage.isTokenExpired` (token-storage.ts lines 123-132); `now` is
`Math.floor(Date.now() / 1000)`.  The guard is the JS truthiness test
`!tokens.expires_at`, so `expires_at = 0` falls into the "no expiration
info" branch. -/
def isTokenExpired (tokens : TokenSet) (now : Nat) : Bool :=
  if !jsTruthyNat tokens.expires_at then false
  else decide (tokens.expires_at.getD 0 ≤ now + 300)

/-- Model of `TokenStorage.updateTokenExpiry` (token-storage.ts lines 137-142); `now`
is `Math.floor(Date.now() / 1000)`.  The guard is the JS truthiness test
`if (tokens.expires_in)`, so `expires_in = 0` leaves the record unchanged. -/
def updateTokenExpiry (tokens : TokenSet) (now : Nat) : TokenSet :=
  if jsTruthyNat tokens.expires_in then
    { tokens with expires_at := some (now + tokens.expires_in.getD 0) }
  else tokens

/-- Outcome of the `fs.readFile` call in `loadTokens`: file absent (ENOENT),
some other I/O error, or the file's text content. -/
inductive ReadResult where
  | enoent
  | ioError (msg : String)
  | content (text : List Char)
deriving DecidableEq

/-- Result of `loadTokens`: `absent` is the `null` return, `failure` the
thrown `Failed to load tokens` error. -/
inductive LoadResult where
  | absent
  | ok (tokens : TokenSet)
  | failure (msg : String)
deriving DecidableEq

/-- Model of `TokenStorage.loadTokens` (token-storage.ts lines 78-93).  `parseEnv`
stands for `JSON.parse` of the file text into `EncryptedData`, `parseTok`
for `JSON.parse` of the decrypted UTF-8 bytes into a `TokenSet`; both return
`none` where `JSON.parse` throws.  Only the ENOENT read error reaches the
`return null` branch; every other throw is re-raised as a
`Failed to load tokens` error. -/
def loadTokens (parseEnv : List Char → Option EncryptedData)
    (parseTok : List Nat → Option TokenSet)
    (A : AEAD) (key : List Nat) (file : ReadResult) : LoadResult :=
  match file with
  | .enoent => .absent
  | .ioError m => .failure ("Failed to load tokens: " ++ m)
  | .content text =>
    match parseEnv text with
    | none => .failure "Failed to load tokens: invalid JSON"
    | some env =>
      match CryptoManager.decrypt A env key with
      | none => .failure "Failed to load tokens: decryption failed"
      | some pt =>
        match parseTok pt with
        | none => .failure "Failed to load tokens: invalid JSON"
        | some t => .ok t

/-- Model of `TokenStorage.saveTokens` (token-storage.ts lines 63-73): serialize the
record, encrypt it under the derived machine key, write the serialized
envelope.  `serTok` stands for `JSON.stringify(tokens)` (as UTF-8 bytes),
`serEnv` for `JSON.stringify(encrypted)`; the fresh random `iv` and `salt`
draws of the underlying `encrypt` call are explicit. -/
def saveTokens (serEnv : EncryptedData → List Char) (serTok : TokenSet → List Nat)
    (A : AEAD) (key iv salt : List Nat) (tokens : TokenSet) : List Char :=
  serEnv (CryptoManager.encrypt A key iv salt (serTok tokens))

end TokenStorage

/-- Refinement comparison only — follows the spec's words for `isExpired`
("true if `absoluteExpiry` is set and is ≤ (current time + a fixed
300-second safety buffer); false if unset"). -/
def spec_isExpired (tokens : TokenSet) (now : Nat) : Bool :=
  match tokens.expires_at with
  | none => false
  | some e => decide (e ≤ now + 300)

/-- Refinement comparison only — follows the spec's words for
`withComputedExpiry` ("if `issuedLifetimeSeconds` present, sets
`absoluteExpiry` = now + that value; otherwise returns record unchanged"). -/
def spec_withComputedExpiry (tokens : TokenSet) (now : Nat) : TokenSet :=
  match tokens.expires_in with
  | none => tokens
  | some n => { tokens with expires_at := some (now + n) }

/-! ### OAuthManager (src/auth/oauth-manager.ts) -/

/-- Model of `PKCEChallenge` from src/auth/auth-types.ts. -/
structure PKCEChallenge where
  verifier : String
  challenge : String
  method : String
deriving DecidableEq

/-- Model of `OAuthConfig` from src/auth/auth-types.ts. -/
structure OAuthConfig where
  clientId : String
  redirectUri : String
  scopes : List String
deriving DecidableEq

/-- The mutable fields of an `OAuthManager` instance together with the
decrypted view of the `TokenStorage` file it owns (`stored`).
`callbackServer : Bool` records whether `this.callbackServer` is non-null. -/
structure MgrState where
  config : OAuthConfig
  stored : Option TokenSet
  currentPKCE : Option PKCEChallenge
  callbackServer : Bool
  callbackPort : Nat
deriving DecidableEq

namespace OAuthManager

/-- The `OAuthManager` constructor (oauth-manager.ts lines 19-22):
`currentPKCE` is initialised to `null`, `callbackServer` to `null`,
`callbackPort` to 8080.  `stored` is whatever credential file pre-exists. -/
def mkState (config : OAuthConfig) (stored : Option TokenSet) : MgrState :=
  { config := config
    stored := stored
    currentPKCE := none
    callbackServer := false
    callbackPort := 8080 }

/-- Model of `OAuthManager.generatePKCE` (oauth-manager.ts lines 27-36).  The
128-character random verifier draw is the argument `randVerifier`; `sha`
stands for `CryptoManager.generateSHA256Hash`. -/
def generatePKCE (sha : String → String) (randVerifier : String) : PKCEChallenge :=
  { verifier := randVerifier
    challenge := sha randVerifier
    method := "S256" }

/-- Model of `OAuthManager.getAuthorizationUrl` (oauth-manager.ts lines 41-57):
stores a freshly generated PKCE pair in `currentPKCE` and returns the
authorization-endpoint query parameters in source order (`randState` is the
32-character random `state` draw). -/
def getAuthorizationUrl (st : MgrState) (sha : String → String)
    (randVerifier randState : String) : MgrState × List (String × String) :=
  let pkce := generatePKCE sha randVerifier
  ({ st with currentPKCE := some pkce },
    [("client_id", st.config.clientId),
     ("redirect_uri", st.config.redirectUri),
     ("response_type", "code"),
     ("scope", String.intercalate " " st.config.scopes),
     ("code_challenge", pkce.challenge),
     ("code_challenge_method", pkce.method),
     ("access_type", "offline"),
     ("prompt", "consent"),
     ("state", randState)])

/-- Outcome of `exchangeCodeForTokens`: the no-PKCE throw, the non-ok HTTP
throw, or the persisted-and-returned record. -/
inductive ExchangeResult where
  | noPKCE
  | httpError (status : Nat) (body : String)
  | success (tokens : TokenSet)
deriving DecidableEq

/-- Model of `OAuthManager.exchangeCodeForTokens` (oauth-manager.ts lines 62-101).
The token-endpoint response is the argument `resp` (`.error (status, body)`
for a non-ok HTTP response, `.ok tokens` for the parsed JSON body); `now` is
the clock read inside `updateTokenExpiry`.  On success the record with
computed expiry is saved to storage, `currentPKCE` is cleared and the record
returned; on either throw the state is unchanged. -/
def exchangeCodeForTokens (st : MgrState) (code : String)
    (resp : Except (Nat × String) TokenSet) (now : Nat) : MgrState × ExchangeResult :=
  match st.currentPKCE with
  | none => (st, .noPKCE)
  | some _ =>
    match resp with
    | .error (status, body) => (st, .httpError status body)
    | .ok tokens =>
      let tokensWithExpiry := TokenStorage.updateTokenExpiry tokens now
      ({ st with stored := some tokensWithExpiry, currentPKCE := none },
        .success tokensWithExpiry)

/-- Outcome of `refreshAccessToken`: the re-authentication-required throw
(no stored record or no refresh token), the non-ok HTTP throw, or the
persisted-and-returned record. -/
inductive RefreshResult where
  | noRefreshToken
  | httpError (status : Nat) (body : String)
  | success (tokens : TokenSet)
deriving DecidableEq

/-- Model of `OAuthManager.refreshAccessToken` (oauth-manager.ts lines 106-147) as a
function of the stored record and the token-endpoint response.  The guard is
JS `!existingTokens?.refresh_token`; if the response's `refresh_token` is
falsy the previously stored one is written into the new record before the
expiry computation.  The returned record is the exact value saved to
storage. -/
def refreshAccessToken (stored : Option TokenSet)
    (resp : Except (Nat × String) TokenSet) (now : Nat) : RefreshResult :=
  match stored with
  | none => .noRefreshToken
  | some existingTokens =>
    if jsTruthyStr existingTokens.refresh_token then
      match resp with
      | .error (status, body) => .httpError status body
      | .ok newTokens =>
        let nt :=
          if !jsTruthyStr newTokens.refresh_token then
            { newTokens with refresh_token := existingTokens.refresh_token }
          else newTokens
        .success (TokenStorage.updateTokenExpiry nt now)
    else .noRefreshToken

/-- Model of `OAuthManager.isTokenValid` (oauth-manager.ts lines 152-160) as a
function of the stored record. -/
def isTokenValid (stored : Option TokenSet) (now : Nat) : Bool :=
  match stored with
  | none => false
  | some tokens => !TokenStorage.isTokenExpired tokens now

/-- Outcome of `getValidAccessToken`: a bearer token string, the
`Token refresh failed. Re-authentication required.` throw, or the
`No tokens available.` throw. -/
inductive TokenResult where
  | token (t : String)
  | reauthRequired
  | noTokens
deriving DecidableEq

/-- Model of `OAuthManager.getValidAccessToken` (oauth-manager.ts lines 305-323): if
the stored record is currently valid its access token is returned; otherwise
one refresh is attempted, whose success yields the refreshed record's access
token and whose failure (of any kind) is rethrown as the
re-authentication-required error. -/
def getValidAccessToken (stored : Option TokenSet)
    (resp : Except (Nat × String) TokenSet) (now : Nat) : TokenResult :=
  if !isTokenValid stored now then
    match refreshAccessToken stored resp now with
    | .success refreshedTokens => .token refreshedTokens.access_token
    | _ => .reauthRequired
  else
    match stored with
    | none => .noTokens
    | some tokens => .token tokens.access_token

end OAuthManager

namespace OAuthManager

/-- Model of `OAuthManager.startCallbackServer` (oauth-manager.ts lines 189-208).
`this.callbackServer = http.createServer()` is assigned before `listen`, so
the server field is non-null on both the resolve and the reject path;
`outcome` is `.ok boundPort` (after any EADDRINUSE port increments) or
`.error e` for a non-EADDRINUSE listen error. -/
def startCallbackServer (st : MgrState) (outcome : Except String Nat) :
    MgrState × Except String Nat :=
  match outcome with
  | .ok port => ({ st with callbackServer := true, callbackPort := port }, .ok port)
  | .error e => ({ st with callbackServer := true }, .error e)

/-- The event that settles the promise inside `waitForCallback`: either the
5-minute timeout fires, or a request arrives with the given path and query
parameters. -/
inductive CallbackEvent where
  | timeout
  | request (path : String) (code err errDescription : Option String)
deriving DecidableEq

/-- Model of `OAuthManager.waitForCallback` (oauth-manager.ts lines 213-252).  A
request off the `/oauth/callback` path gets a 404 and never settles the
promise, so the timeout eventually rejects; `error`/`code` are JS-truthiness
tested; a missing `error_description` prints as `undefined` in the template
literal. -/
def waitForCallback (serverUp : Bool) (ev : CallbackEvent) : Except String String :=
  if !serverUp then .error "Callback server not started"
  else
    match ev with
    | .timeout => .error "OAuth callback timeout"
    | .request path code err errDescription =>
      if path = "/oauth/callback" then
        if jsTruthyStr err then
          .error ("OAuth error: " ++ err.getD "undefined" ++ " - "
            ++ errDescription.getD "undefined")
        else if jsTruthyStr code then .ok (code.getD "")
        else .error "No authorization code received"
      else .error "OAuth callback timeout"

/-- Model of `OAuthManager.stopCallbackServer` (oauth-manager.ts lines 257-262):
closes the server if any and nulls the field. -/
def stopCallbackServer (st : MgrState) : MgrState :=
  { st with callbackServer := false }

/-- Outcome of `completeOAuthFlow`. -/
inductive FlowResult where
  | success (tokens : TokenSet)
  | failure (msg : String)
deriving DecidableEq

/-- Model of `OAuthManager.completeOAuthFlow` (oauth-manager.ts lines 267-293): start
the listener, rewrite `config.redirectUri` to the bound port, build the
authorization URL (which installs the pending PKCE pair), await the
callback, exchange the code; the `finally` block runs `stopCallbackServer`
on every path out. -/
def completeOAuthFlow (st : MgrState) (startOutcome : Except String Nat)
    (sha : String → String) (randVerifier randState : String) (ev : CallbackEvent)
    (resp : Except (Nat × String) TokenSet) (now : Nat) : MgrState × FlowResult :=
  match startCallbackServer st startOutcome with
  | (st1, .error e) => (stopCallbackServer st1, .failure e)
  | (st1, .ok port) =>
    let st2 := { st1 with config :=
      { st1.config with
        redirectUri := "http://localhost:" ++ toString port ++ "/oauth/callback" } }
    let (st3, _authUrl) := getAuthorizationUrl st2 sha randVerifier randState
    match waitForCallback st3.callbackServer ev with
    | .error e => (stopCallbackServer st3, .failure e)
    | .ok authCode =>
      match exchangeCodeForTokens st3 authCode resp now with
      | (st4, .success tokens) => (stopCallbackServer st4, .success tokens)
      | (st4, .noPKCE) =>
        (stopCallbackServer st4,
          .failure "No PKCE challenge found. Must call getAuthorizationUrl() first.")
      | (st4, .httpError status body) =>
        (stopCallbackServer st4,
          .failure ("Token exchange failed: " ++ toString status ++ " " ++ body))

end OAuthManager

/-! ### Shared helper lemmas -/

theorem jsTruthyStr_none : jsTruthyStr none = false := rfl

theorem jsTruthyStr_some (s : String) : jsTruthyStr (some s) = decide (s ≠ "") := rfl

theorem jsTruthyNat_none : jsTruthyNat none = false := rfl

theorem jsTruthyNat_some (n : Nat) : jsTruthyNat (some n) = decide (n ≠ 0) := rfl

theorem updateTokenExpiry_refresh_token (t : TokenSet) (now : Nat) :
    (TokenStorage.updateTokenExpiry t now).refresh_token = t.refresh_token := by
  unfold TokenStorage.updateTokenExpiry
  split <;> rfl

/-! ### Claims -/

/-- C1: for every plaintext and every key, decrypting the envelope produced
by `encrypt` with the same key returns exactly the plaintext — the
hex-encoded 128-bit auth tag appended to the `data` field is split off
correctly, including for the empty plaintext (whose `data` is exactly the 32
tag characters). -/
theorem c1_encrypt_decrypt_round_trip (A : AEAD) (key iv salt plaintext : List Nat)
    (hiv : ∀ b ∈ iv, b < 256) (hsalt : ∀ b ∈ salt, b < 256)
    (hp : ∀ b ∈ plaintext, b < 256) :
    CryptoManager.decrypt A (CryptoManager.encrypt A key iv salt plaintext) key
      = some plaintext :=
  decrypt_encrypt A key iv salt plaintext hiv hsalt hp

theorem c1_witness :
    CryptoManager.decrypt idAEAD (CryptoManager.encrypt idAEAD [7] [1, 2] [3] []) [7]
        = some []
    ∧ CryptoManager.decrypt idAEAD (CryptoManager.encrypt idAEAD [7] [1] [2] [104, 255]) [7]
        = some [104, 255] :=
  ⟨c1_encrypt_decrypt_round_trip idAEAD [7] [1, 2] [3] []
      (by decide) (by decide) (by decide),
    c1_encrypt_decrypt_round_trip idAEAD [7] [1] [2] [104, 255]
      (by decide) (by decide) (by decide)⟩

/-- C8: two calls to `encrypt` with identical plaintext and key but distinct
fresh random IV draws (each call draws a fresh IV and AAD) produce different
envelopes: the hex-encoded `iv` fields already differ. -/
theorem c8_encrypt_randomized (A : AEAD) (key iv1 salt1 iv2 salt2 plaintext : List Nat)
    (h1 : ∀ b ∈ iv1, b < 256) (h2 : ∀ b ∈ iv2, b < 256) (hne : iv1 ≠ iv2) :
    CryptoManager.encrypt A key iv1 salt1 plaintext
      ≠ CryptoManager.encrypt A key iv2 salt2 plaintext := by
  intro h
  exact hne (hexEncode_injOn iv1 iv2 h1 h2 (congrArg EncryptedData.iv h))

theorem c8_witness :
    CryptoManager.encrypt idAEAD [7] [0] [5] [9]
      ≠ CryptoManager.encrypt idAEAD [7] [1] [6] [9] :=
  c8_encrypt_randomized idAEAD [7] [0] [5] [1] [6] [9] (by decide) (by decide) (by decide)

/-- C2: `loadTokens` returns the absent value (`null`) exactly when the
credential file does not exist (ENOENT); any other read error, file contents
that do not parse as an envelope, or an envelope that fails decryption, is
surfaced as a `Failed to load tokens` error, never as absent. -/
theorem c2_load_absent_iff_enoent (parseEnv : List Char → Option EncryptedData)
    (parseTok : List Nat → Option TokenSet) (A : AEAD) (key : List Nat)
    (file : TokenStorage.ReadResult) :
    (TokenStorage.loadTokens parseEnv parseTok A key file = .absent
      ↔ file = .enoent)
    ∧ (∀ m, TokenStorage.loadTokens parseEnv parseTok A key (.ioError m)
        = .failure ("Failed to load tokens: " ++ m))
    ∧ (∀ text, parseEnv text = none →
        TokenStorage.loadTokens parseEnv parseTok A key (.content text)
          = .failure "Failed to load tokens: invalid JSON")
    ∧ (∀ text env, parseEnv text = some env →
        CryptoManager.decrypt A env key = none →
        TokenStorage.loadTokens parseEnv parseTok A key (.content text)
          = .failure "Failed to load tokens: decryption failed") := by
  refine ⟨?_, ?_, ?_, ?_⟩
  · constructor
    · intro h
      cases file with
      | enoent => rfl
      | ioError m => simp [TokenStorage.loadTokens] at h
      | content text =>
        rw [TokenStorage.loadTokens] at h
        cases hpe : parseEnv text with
        | none => simp [hpe] at h
        | some env =>
          cases hdec : CryptoManager.decrypt A env key with
          | none => simp [hpe, hdec] at h
          | some pt =>
            cases hpt : parseTok pt with
            | none => simp [hpe, hdec, hpt] at h
            | some t => simp [hpe, hdec, hpt] at h
    · intro h
      subst h
      rfl
  · intro m
    rfl
  · intro text hpe
    simp [TokenStorage.loadTokens, hpe]
  · intro text env hpe hdec
    simp [TokenStorage.loadTokens, hpe, hdec]

theorem c2_witness :
    TokenStorage.loadTokens (fun _ => none) (fun _ => none) idAEAD []
        TokenStorage.ReadResult.enoent = .absent
    ∧ TokenStorage.loadTokens (fun _ => none) (fun _ => none) idAEAD []
        (.content ['z']) = .failure "Failed to load tokens: invalid JSON" :=
  ⟨(c2_load_absent_iff_enoent (fun _ => none) (fun _ => none) idAEAD []
      TokenStorage.ReadResult.enoent).1.mpr rfl,
    (c2_load_absent_iff_enoent (fun _ => none) (fun _ => none) idAEAD []
      TokenStorage.ReadResult.enoent).2.2.1 ['z'] rfl⟩

/-- C10: store-level round trip — saving a record with `saveTokens` and
loading the written file with `loadTokens` under the same derived key
returns the record, provided the record and the envelope survive their JSON
serialisation (the JSON-representability hypothesis of the claim). -/
theorem c10_store_round_trip (serEnv : EncryptedData → List Char)
    (parseEnv : List Char → Option EncryptedData)
    (serTok : TokenSet → List Nat) (parseTok : List Nat → Option TokenSet)
    (A : AEAD) (key iv salt : List Nat) (tokens : TokenSet)
    (hiv : ∀ b ∈ iv, b < 256) (hsalt : ∀ b ∈ salt, b < 256)
    (hbytes : ∀ b ∈ serTok tokens, b < 256)
    (henv : parseEnv (TokenStorage.saveTokens serEnv serTok A key iv salt tokens)
      = some (CryptoManager.encrypt A key iv salt (serTok tokens)))
    (htok : parseTok (serTok tokens) = some tokens) :
    TokenStorage.loadTokens parseEnv parseTok A key
      (.content (TokenStorage.saveTokens serEnv serTok A key iv salt tokens))
      = .ok tokens := by
  rw [TokenStorage.loadTokens, henv]
  simp only [decrypt_encrypt A key iv salt (serTok tokens) hiv hsalt hbytes, htok]

theorem c10_witness :
    TokenStorage.loadTokens
        (fun _ => some (CryptoManager.encrypt idAEAD [] [2] [3] [1]))
        (fun _ => some { access_token := "a" }) idAEAD []
        (.content (TokenStorage.saveTokens (fun _ => ['e']) (fun _ => [1])
          idAEAD [] [2] [3] { access_token := "a" }))
      = .ok { access_token := "a" } :=
  c10_store_round_trip (fun _ => ['e'])
    (fun _ => some (CryptoManager.encrypt idAEAD [] [2] [3] [1]))
    (fun _ => [1]) (fun _ => some { access_token := "a" })
    idAEAD [] [2] [3] { access_token := "a" }
    (by decide) (by decide) (by decide) rfl rfl

/-- C3: when the stored record carries a refresh token, a successful refresh
whose response omits `refresh_token` yields (and persists) a record carrying
the previously stored refresh token, while a response including a
(non-empty) refresh token has that new token in the resulting record. -/
theorem c3_refresh_preserves_refresh_token (existingTokens newTokens : TokenSet) (now : Nat)
    (hex : jsTruthyStr existingTokens.refresh_token = true) :
    (newTokens.refresh_token = none →
      ∃ r, OAuthManager.refreshAccessToken (some existingTokens) (.ok newTokens) now
          = .success r ∧ r.refresh_token = existingTokens.refresh_token)
    ∧ (∀ s, newTokens.refresh_token = some s → s ≠ "" →
      ∃ r, OAuthManager.refreshAccessToken (some existingTokens) (.ok newTokens) now
          = .success r ∧ r.refresh_token = some s) := by
  constructor
  · intro h
    refine ⟨TokenStorage.updateTokenExpiry
      { newTokens with refresh_token := existingTokens.refresh_token } now, ?_, ?_⟩
    · simp [OAuthManager.refreshAccessToken, hex, h, jsTruthyStr_none]
    · rw [updateTokenExpiry_refresh_token]
  · intro s hs hne
    refine ⟨TokenStorage.updateTokenExpiry newTokens now, ?_, ?_⟩
    · simp [OAuthManager.refreshAccessToken, hex, hs, jsTruthyStr_some, hne]
    · rw [updateTokenExpiry_refresh_token, hs]

theorem c3_witness :
    ∃ r, OAuthManager.refreshAccessToken
        (some { access_token := "a", refresh_token := some "r1" })
        (.ok { access_token := "b", expires_in := some 3600 }) 100
        = .success r
      ∧ r.refresh_token = some "r1" :=
  (c3_refresh_preserves_refresh_token
    { access_token := "a", refresh_token := some "r1" }
    { access_token := "b", expires_in := some 3600 } 100 (by decide)).1 rfl

/-- C4: `exchangeCodeForTokens` fails with the no-PKCE-challenge error
precisely when no pending challenge exists — a freshly constructed manager
has none, `getAuthorizationUrl` installs one, a pending challenge never
produces that error, and a successful exchange clears the pending challenge
so that a second exchange from the resulting state fails with it. -/
theorem c4_exchange_requires_pending_challenge
    (config : OAuthConfig) (stored : Option TokenSet) (st : MgrState)
    (sha : String → String) (randVerifier randState : String) (code : String)
    (resp : Except (Nat × String) TokenSet) (now : Nat)
    (code2 : String) (resp2 : Except (Nat × String) TokenSet) (now2 : Nat) :
    (OAuthManager.mkState config stored).currentPKCE = none
    ∧ (OAuthManager.getAuthorizationUrl st sha randVerifier randState).1.currentPKCE
        = some (OAuthManager.generatePKCE sha randVerifier)
    ∧ (st.currentPKCE = none →
        OAuthManager.exchangeCodeForTokens st code resp now = (st, .noPKCE))
    ∧ (st.currentPKCE ≠ none →
        (OAuthManager.exchangeCodeForTokens st code resp now).2 ≠ .noPKCE)
    ∧ (∀ tokens, st.currentPKCE ≠ none → resp = .ok tokens →
        (OAuthManager.exchangeCodeForTokens st code resp now).1.currentPKCE = none
        ∧ OAuthManager.exchangeCodeForTokens
            (OAuthManager.exchangeCodeForTokens st code resp now).1 code2 resp2 now2
          = ((OAuthManager.exchangeCodeForTokens st code resp now).1, .noPKCE)) := by
  refine ⟨rfl, rfl, ?_, ?_, ?_⟩
  · intro h
    simp [OAuthManager.exchangeCodeForTokens, h]
  · intro h
    match hpk : st.currentPKCE with
    | none => exact absurd hpk h
    | some pkce =>
      cases resp with
      | error e =>
        cases e with
        | mk status body => simp [OAuthManager.exchangeCodeForTokens, hpk]
      | ok tokens => simp [OAuthManager.exchangeCodeForTokens, hpk]
  · intro tokens h hresp
    subst hresp
    match hpk : st.currentPKCE with
    | none => exact absurd hpk h
    | some pkce =>
      constructor
      · simp [OAuthManager.exchangeCodeForTokens, hpk]
      · simp [OAuthManager.exchangeCodeForTokens, hpk]

theorem c4_witness :
    (OAuthManager.exchangeCodeForTokens
        (OAuthManager.exchangeCodeForTokens
          { config := { clientId := "c", redirectUri := "u", scopes := [] }
            stored := none
            currentPKCE := some { verifier := "v", challenge := "h", method := "S256" }
            callbackServer := false
            callbackPort := 8080 }
          "code1" (.ok { access_token := "a" }) 50).1
        "code2" (.ok { access_token := "b" }) 60).2
      = .noPKCE := by
  have h := (c4_exchange_requires_pending_challenge
    { clientId := "c", redirectUri := "u", scopes := [] } none
    { config := { clientId := "c", redirectUri := "u", scopes := [] }
      stored := none
      currentPKCE := some { verifier := "v", challenge := "h", method := "S256" }
      callbackServer := false
      callbackPort := 8080 }
    id "v" "s" "code1" (.ok { access_token := "a" }) 50
    "code2" (.ok { access_token := "b" }) 60).2.2.2.2
    { access_token := "a" } (by decide) rfl
  rw [h.2]

/-- C6 counterexample: a record with `expires_at = 0` (present, and ≤ now +
300 at now = 0) is classified expired by the spec's predicate but not by the
code, whose guard is the JS truthiness test `!tokens.expires_at`. -/
theorem c6_counterexample :
    spec_isExpired { access_token := "a", expires_at := some 0 } 0 = true
    ∧ TokenStorage.isTokenExpired { access_token := "a", expires_at := some 0 } 0 = false := by
  decide

/-- C6 (amended): `isTokenExpired` returns true iff `expires_at` is present,
nonzero, and at most now + 300; a record with no `expires_at` — or with
`expires_at = 0`, which the JS truthiness guard treats as absent — is never
reported expired. -/
theorem c6_isTokenExpired_iff (tokens : TokenSet) (now : Nat) :
    TokenStorage.isTokenExpired tokens now = true
      ↔ ∃ e, tokens.expires_at = some e ∧ e ≠ 0 ∧ e ≤ now + 300 := by
  unfold TokenStorage.isTokenExpired
  cases h : tokens.expires_at with
  | none => simp [h, jsTruthyNat_none]
  | some e =>
    by_cases he : e = 0
    · subst he
      simp [h, jsTruthyNat_some]
    · simp [h, jsTruthyNat_some, he]

theorem c6_witness :
    TokenStorage.isTokenExpired { access_token := "a", expires_at := some 100 } 0 = true :=
  (c6_isTokenExpired_iff { access_token := "a", expires_at := some 100 } 0).mpr
    ⟨100, rfl, by decide, by decide⟩

/-- C7 counterexample: on a record with `expires_in = 0` and a stale
`expires_at = 999`, the spec's `withComputedExpiry` sets `expires_at` to now
(= 5) but the code's JS truthiness guard `if (tokens.expires_in)` leaves the
record — and its stale `expires_at` — unchanged. -/
theorem c7_counterexample :
    TokenStorage.updateTokenExpiry
        { access_token := "a", expires_in := some 0, expires_at := some 999 } 5
      = { access_token := "a", expires_in := some 0, expires_at := some 999 }
    ∧ spec_withComputedExpiry
        { access_token := "a", expires_in := some 0, expires_at := some 999 } 5
      ≠ TokenStorage.updateTokenExpiry
        { access_token := "a", expires_in := some 0, expires_at := some 999 } 5 := by
  decide

/-- C7 (amended): `updateTokenExpiry` is a pure function of the record and
the clock: if `expires_in` is present and nonzero the result is the record
with `expires_at` set to now + `expires_in` and all other fields unchanged;
if `expires_in` is absent — or zero, which the JS truthiness guard treats as
absent — the record is returned unchanged, any previous `expires_at`
included. -/
theorem c7_updateTokenExpiry_characterization (tokens : TokenSet) (now : Nat) :
    (∀ n, tokens.expires_in = some n → n ≠ 0 →
      TokenStorage.updateTokenExpiry tokens now
        = { tokens with expires_at := some (now + n) })
    ∧ ((tokens.expires_in = none ∨ tokens.expires_in = some 0) →
      TokenStorage.updateTokenExpiry tokens now = tokens) := by
  constructor
  · intro n hn hne
    simp [TokenStorage.updateTokenExpiry, hn, jsTruthyNat_some, hne]
  · intro h
    cases h with
    | inl h => simp [TokenStorage.updateTokenExpiry, h, jsTruthyNat_none]
    | inr h => simp [TokenStorage.updateTokenExpiry, h, jsTruthyNat_some]

theorem c7_witness :
    TokenStorage.updateTokenExpiry { access_token := "a", expires_in := some 3600 } 100
      = { access_token := "a", expires_in := some 3600, expires_at := some 3700 } :=
  (c7_updateTokenExpiry_characterization
    { access_token := "a", expires_in := some 3600 } 100).1 3600 rfl (by decide)

/-- C5 counterexample: with an expired stored record and a refresh response
carrying `expires_in = 60`, `getValidAccessToken` returns the access token
of the freshly persisted record even though the expiry check (whose buffer
is 300 s) already classifies that record as expired — refuting the claim's
"on no execution path does it return an access token from a record the
expiry check classifies as expired". -/
theorem c5_counterexample :
    OAuthManager.refreshAccessToken
        (some { access_token := "old-access", refresh_token := some "refresh-1",
                expires_at := some 10 })
        (.ok { access_token := "fresh-access", expires_in := some 60 }) 1000
      = .success { access_token := "fresh-access", refresh_token := some "refresh-1",
                   expires_in := some 60, expires_at := some 1060 }
    ∧ OAuthManager.getValidAccessToken
        (some { access_token := "old-access", refresh_token := some "refresh-1",
                expires_at := some 10 })
        (.ok { access_token := "fresh-access", expires_in := some 60 }) 1000
      = .token "fresh-access"
    ∧ TokenStorage.isTokenExpired
        { access_token := "fresh-access", refresh_token := some "refresh-1",
          expires_in := some 60, expires_at := some 1060 } 1000
      = true := by
  decide

/-- C5 (amended): `getValidAccessToken` returns the stored access token when
the stored record is currently valid; otherwise it attempts exactly one
refresh — on refresh success it returns the access token of the freshly
refreshed and persisted record (never the stale stored one, though the fresh
record's own lifetime may already fall within the 300 s expiry buffer), and
on any refresh failure it fails with the re-authentication-required
error. -/
theorem c5_getValidAccessToken_behaviour (stored : Option TokenSet)
    (resp : Except (Nat × String) TokenSet) (now : Nat) :
    (OAuthManager.isTokenValid stored now = true →
      ∃ t, stored = some t
        ∧ OAuthManager.getValidAccessToken stored resp now = .token t.access_token)
    ∧ (OAuthManager.isTokenValid stored now = false →
        (∀ r, OAuthManager.refreshAccessToken stored resp now = .success r →
          OAuthManager.getValidAccessToken stored resp now = .token r.access_token)
        ∧ (∀ status body,
            OAuthManager.refreshAccessToken stored resp now = .httpError status body →
            OAuthManager.getValidAccessToken stored resp now = .reauthRequired)
        ∧ (OAuthManager.refreshAccessToken stored resp now = .noRefreshToken →
            OAuthManager.getValidAccessToken stored resp now = .reauthRequired)) := by
  constructor
  · intro hv
    cases hst : stored with
    | none => rw [hst] at hv; simp [OAuthManager.isTokenValid] at hv
    | some t =>
      subst hst
      refine ⟨t, rfl, ?_⟩
      simp [OAuthManager.getValidAccessToken, hv]
  · intro hv
    refine ⟨?_, ?_, ?_⟩
    · intro r hr
      simp [OAuthManager.getValidAccessToken, hv, hr]
    · intro status body hr
      simp [OAuthManager.getValidAccessToken, hv, hr]
    · intro hr
      simp [OAuthManager.getValidAccessToken, hv, hr]

theorem c5_witness :
    ∃ t, (some { access_token := "tok", expires_at := some 5000 } : Option TokenSet)
        = some t
      ∧ OAuthManager.getValidAccessToken
          (some { access_token := "tok", expires_at := some 5000 })
          (.error (500, "boom")) 100 = .token t.access_token :=
  (c5_getValidAccessToken_behaviour
    (some { access_token := "tok", expires_at := some 5000 })
    (.error (500, "boom")) 100).1 (by decide)

/-- C9: `completeOAuthFlow` never terminates with the callback listener
still running — on every exit path (listener start failure, provider error
or missing code in the callback, 5-minute timeout, exchange failure, and
successful exchange) the `finally` block has stopped the listener before the
flow returns or fails. -/
theorem c9_listener_stopped_on_every_exit (st : MgrState)
    (startOutcome : Except String Nat) (sha : String → String)
    (randVerifier randState : String) (ev : OAuthManager.CallbackEvent)
    (resp : Except (Nat × String) TokenSet) (now : Nat) :
    ((OAuthManager.completeOAuthFlow st startOutcome sha randVerifier randState
      ev resp now).1).callbackServer = false := by
  rw [OAuthManager.completeOAuthFlow]
  cases startOutcome with
  | error e => rfl
  | ok port =>
    simp only [OAuthManager.startCallbackServer, OAuthManager.getAuthorizationUrl]
    split
    · rfl
    · split <;> rfl
